import Mathlib

/-!
Shallow embedding of the training/evaluation lifecycle orchestrator of
the pet-detector repository (source file `references/lightning.py`),
together with the collaborator interfaces the orchestrator relies on.

Conventions used throughout:

* Tensor scalars are rationals (`Scalar := ℚ`); images are opaque tokens
  (`Image := Nat`).
* Python attribute assignment is explicit state passing: a method that
  assigns to `self` returns an updated `DetectionModel` record; a method
  that assigns nothing returns its `self` unchanged.
* Logging calls (`fancy_logger.info`) produce the message strings they
  would log and have no other effect.
* Components imported from outside this repository's source tree
  (`CocoEvaluator`, `collate_fn`, `DetectionDataset`, `get_tfms`,
  `load_obj`, torch's `DataLoader`, the Lightning trainer loop) are
  modelled from the specification; each such definition carries a doc
  comment saying so.
-/

abbrev Scalar := ℚ

abbrev Image := Nat

abbrev Box := ℚ × ℚ × ℚ × ℚ

/-- Per-image ground truth as carried in the target dicts of
`references/lightning.py` (keys `boxes`, `labels`, `image_id`). -/
structure Target where
  boxes : List Box
  labels : List Nat
  image_id : Nat
deriving DecidableEq

/-- Per-image prediction produced by the model's `predict` capability. -/
structure DetectionResult where
  boxes : List Box
  labels : List Nat
  scores : List Scalar
deriving DecidableEq

/-- One collated batch as unpacked by the steps:
`images, targets, _ = batch` (the third component is the id list). -/
structure Batch where
  images : List Image
  targets : List Target
  ids : List Nat

/-- One trainable tensor of the wrapped network, identified by `pid`,
with its `requires_grad` flag. -/
structure Param where
  pid : Nat
  requires_grad : Bool
deriving DecidableEq

/-- Model boundary (spec section 6): the wrapped RetinaNet exposes
a training-mode forward (`model(images, targets)` returning the loss
dict), an evaluation-mode forward (`model(images)`), a prediction-mode
`predict`, and its parameter list. The network internals are outside
the orchestrator and are treated as an external collaborator. -/
structure Model where
  forwardLoss : List Image → List Target → List (String × Scalar)
  forwardEval : List Image → List (String × Scalar)
  predictBatch : List Image → List DetectionResult
  parameters : List Param

/-- `hparams.optimizer` subtree of the config. -/
structure OptimizerConf where
  class_name : String
  params : List (String × Scalar)

/-- `hparams.scheduler` subtree of the config. -/
structure SchedulerConf where
  class_name : String
  params : List (String × Scalar)
  interval : String
  frequency : Nat

/-- The `DictConfig` handed to `DetectionModel.__init__` (see
`main.yaml` fields referenced by `references/lightning.py`). The
`*_augs` lists name the per-stage augmentation pipelines resolved by
`get_tfms`. -/
structure Hparams where
  optimizer : OptimizerConf
  scheduler : SchedulerConf
  train_csv : String
  valid_csv : String
  test_csv : String
  train_batch_size : Nat
  valid_batch_size : Nat
  test_batch_size : Nat
  dataloader : List (String × Scalar)
  iou_types : String
  train_augs : List String
  valid_augs : List String
  test_augs : List String

/-- Result of `get_tfms`: one augmentation pipeline per stage.
Modelled from the spec: `get_tfms` lives in `utils` outside `src/`;
per the spec it resolves per-stage augmentation pipelines from
configuration. -/
structure Tfms where
  train : List String
  valid : List String
  test : List String
deriving DecidableEq

/-- One dataframe row of a record source: image path plus annotations,
already resolved to the sample it yields (`DetectionDataset` turns the
row into an (image, target, id) sample). -/
structure Row where
  image : Image
  target : Target
  id : Nat
deriving DecidableEq

/-- The optimizer instance built by `load_obj(optimizer.class_name)`:
a record tagged with the class name, bound to the parameter list it was
constructed over, holding its keyword hyperparameters. Modelled from
the spec: `load_obj` performs dynamic class loading outside `src/`. -/
structure Optimizer where
  class_name : String
  params : List Param
  hyper : List (String × Scalar)
deriving DecidableEq

/-- The scheduler instance built by `load_obj(scheduler.class_name)`,
wrapping the optimizer. Modelled from the spec, as for `Optimizer`. -/
structure Scheduler where
  class_name : String
  optimizer : Optimizer
  hyper : List (String × Scalar)
deriving DecidableEq

/-- The dict `configure_optimizers` wraps around the scheduler:
`scheduler`, `interval`, `frequency` keys. -/
structure SchedulerDict where
  scheduler : Scheduler
  interval : String
  frequency : Nat
deriving DecidableEq

/-- Evaluation accumulator. Modelled from the spec: `CocoEvaluator` is
imported from `pytorch_retinanet.utils`, which is not under `src/`.
The spec gives its contract: it owns a running collection of per-image
results keyed by image identifier plus an accumulated flag; `update`
rejects an identifier already submitted during the pass with
`DuplicateImageError`; `accumulate` is one-time (a second call without
reset is a no-op); `summarize` finalizes. Only this lifecycle is
modelled; the AP numerics are referenced by no claim and are omitted. -/
structure CocoEvaluator where
  iou_types : List String
  entries : List (Nat × DetectionResult)
  accumulated : Bool
  summarized : Bool
deriving DecidableEq

/-- Error kinds surfaced by the embedded orchestrator. `readError`
wraps a failure of the record-source reader (`pd.read_csv`);
`attributeError` models touching `self.test_evaluator` before
`test_dataloader` has set it. -/
inductive OrchestratorError where
  | duplicateImage
  | attributeError
  | readError (path : String)
deriving DecidableEq

/-- A fresh accumulator as constructed at `test_dataloader` time:
no entries, nothing accumulated or summarized. -/
def CocoEvaluator.fresh (iou_types : List String) : CocoEvaluator :=
  { iou_types := iou_types, entries := [], accumulated := false, summarized := false }

/-- `CocoEvaluator.update res`: merge a mapping from image identifier to
result into the running state; an identifier already present from an
earlier call of this pass is a `DuplicateImageError`. Modelled from the
spec (see `CocoEvaluator`). -/
def CocoEvaluator.update (ev : CocoEvaluator) (res : List (Nat × DetectionResult)) :
    Except OrchestratorError CocoEvaluator :=
  if res.any (fun r => ev.entries.any (fun e => e.fst == r.fst)) then
    .error .duplicateImage
  else
    .ok { ev with entries := ev.entries ++ res }

/-- `CocoEvaluator.accumulate`: one-time conversion of the collected
results; a second call without an intervening reset is a no-op.
Modelled from the spec (see `CocoEvaluator`). -/
def CocoEvaluator.accumulate (ev : CocoEvaluator) : CocoEvaluator :=
  if ev.accumulated then ev else { ev with accumulated := true }

/-- `CocoEvaluator.summarize`: finalize the pass. Modelled from the
spec (see `CocoEvaluator`). -/
def CocoEvaluator.summarize (ev : CocoEvaluator) : CocoEvaluator :=
  { ev with summarized := true }

/-- The Lightning module `DetectionModel` of `references/lightning.py`.
Fields assigned after `__init__` (`tfms`, the three dataframes, the
optimizer/scheduler, the test evaluator) carry defaults standing for
"not yet assigned"; in Python, reading them before assignment would be
an `AttributeError`, and no theorem below relies on the defaults. -/
structure DetectionModel where
  model : Model
  hparams : Hparams
  tfms : Tfms := { train := [], valid := [], test := [] }
  trn_df : List Row := []
  val_df : List Row := []
  test_df : List Row := []
  optimizer : Option Optimizer := none
  scheduler : Option SchedulerDict := none
  test_evaluator : Option CocoEvaluator := none

/-- Total loss as computed by `training_step` and `validation_step`:
`sum(loss for loss in loss_dict.values())`. -/
def lossTotal (loss_dict : List (String × Scalar)) : Scalar :=
  (loss_dict.map Prod.snd).sum

/-- `configure_optimizers` (`references/lightning.py` lines 46-63):
filters the model parameters to those with `requires_grad`, builds the
optimizer over exactly that list, wraps the scheduler with its interval
and frequency, stores both on `self`, and returns `[optimizer],
[scheduler_dict]`. -/
def DetectionModel.configure_optimizers (st : DetectionModel) :
    DetectionModel × (List Optimizer × List SchedulerDict) :=
  let params := st.model.parameters.filter (fun p => p.requires_grad)
  let optimizer : Optimizer :=
    { class_name := st.hparams.optimizer.class_name
    , params := params
    , hyper := st.hparams.optimizer.params }
  let sched : Scheduler :=
    { class_name := st.hparams.scheduler.class_name
    , optimizer := optimizer
    , hyper := st.hparams.scheduler.params }
  let schedulerDict : SchedulerDict :=
    { scheduler := sched
    , interval := st.hparams.scheduler.interval
    , frequency := st.hparams.scheduler.frequency }
  ({ st with optimizer := some optimizer, scheduler := some schedulerDict },
   ([optimizer], [schedulerDict]))

/-- Output dict of `training_step`:
`{"loss": losses, "log": loss_dict, "progress_bar": loss_dict}`. -/
structure TrainStepOut where
  loss : Scalar
  log : List (String × Scalar)
  progress_bar : List (String × Scalar)

/-- `training_step` (`references/lightning.py` lines 109-116): unpack
the batch, run the training-mode forward to get the loss dict, sum its
values into the total loss, return the dict alongside. Assigns nothing
to `self`. -/
def DetectionModel.training_step (st : DetectionModel) (batch : Batch) :
    DetectionModel × TrainStepOut :=
  let images := batch.images
  let targets := batch.targets
  let loss_dict := st.model.forwardLoss images targets
  let losses := lossTotal loss_dict
  (st, { loss := losses, log := loss_dict, progress_bar := loss_dict })

/-- One `result.log(...)` record of `pl.EvalResult`. -/
structure LogEntry where
  name : String
  value : Scalar
  on_step : Bool
  on_epoch : Bool
  prog_bar : Bool
  logger : Bool
deriving DecidableEq

/-- `pl.EvalResult`: the log entries it collects. -/
structure EvalResult where
  logs : List LogEntry
deriving DecidableEq

/-- `result.log(name, value, flags...)`. -/
def EvalResult.log (r : EvalResult) (name : String) (value : Scalar)
    (on_step on_epoch prog_bar logger : Bool) : EvalResult :=
  { logs := r.logs ++ [{ name := name, value := value, on_step := on_step
                       , on_epoch := on_epoch, prog_bar := prog_bar, logger := logger }] }

/-- `validation_step` (`references/lightning.py` lines 129-139): unpack
the batch, run the forward to get the loss dict, sum it, log `val_loss`
on an `EvalResult`, return it. Assigns nothing to `self`: the returned
state is the input state. -/
def DetectionModel.validation_step (st : DetectionModel) (batch : Batch) :
    DetectionModel × EvalResult :=
  let images := batch.images
  let targets := batch.targets
  let loss_dict := st.model.forwardLoss images targets
  let loss := lossTotal loss_dict
  let result : EvalResult := { logs := [] }
  let result := result.log "val_loss" loss false true true true
  (st, result)

/-- A concrete `DetectionResult` used by the stub model: it tags the
image token it was predicted for, so distinct images get distinct
results. -/
def stubPrediction (i : Image) : DetectionResult :=
  { boxes := [], labels := [i], scores := [] }

/-- Model stub of the spec's end-to-end scenario: the forward returns
the fixed loss dict with classification 0.3 and regression 0.2 on every
batch; `predict` yields one result per image. -/
def stubModel : Model :=
  { forwardLoss := fun _ _ => [("classification", 3/10), ("regression", 2/10)]
  , forwardEval := fun _ => []
  , predictBatch := fun imgs => imgs.map stubPrediction
  , parameters := [⟨0, true⟩, ⟨1, false⟩, ⟨2, true⟩] }

/-- A concrete configuration for witnesses. -/
def stubHparams : Hparams :=
  { optimizer := { class_name := "torch.optim.SGD", params := [("lr", 1/100)] }
  , scheduler := { class_name := "torch.optim.lr_scheduler.StepLR"
                 , params := [("step_size", 5)], interval := "epoch", frequency := 1 }
  , train_csv := "train.csv"
  , valid_csv := "valid.csv"
  , test_csv := "test.csv"
  , train_batch_size := 2
  , valid_batch_size := 2
  , test_batch_size := 2
  , dataloader := []
  , iou_types := "bbox"
  , train_augs := ["HorizontalFlip"]
  , valid_augs := []
  , test_augs := [] }

/-- A concrete module state for witnesses. -/
def stubDM : DetectionModel :=
  { model := stubModel, hparams := stubHparams }

/-- Insertion into a Python dict (association list): if the key is
present, the value at its position is overwritten (later insertion
wins, position kept); otherwise the pair is appended. -/
def dictInsert (d : List (Nat × DetectionResult)) (k : Nat) (v : DetectionResult) :
    List (Nat × DetectionResult) :=
  if d.any (fun e => e.fst == k) then
    d.map (fun e => if e.fst == k then (k, v) else e)
  else
    d ++ [(k, v)]

/-- The dict comprehension of `test_step`:
`{t["image_id"].item(): o for t, o in zip(targets, outputs)}` builds a
Python dict left to right, so a repeated key keeps only the last value. -/
def dictOfPairs (ps : List (Nat × DetectionResult)) : List (Nat × DetectionResult) :=
  ps.foldl (fun d p => dictInsert d p.fst p.snd) []

/-- Structural worker for `chunkList`, recursing on a fuel counter so
that it evaluates by reduction: with fuel at least the list length it
splits the list into consecutive chunks of size `bs`; exhausted fuel or
a degenerate chunk size of 0 (which the real `DataLoader` rejects)
yields the remaining list as one chunk. -/
def chunkFuel : Nat → Nat → List Row → List (List Row)
  | _, _, [] => []
  | 0, _, l => [l]
  | fuel + 1, bs, x :: xs =>
    if bs = 0 then [x :: xs]
    else (x :: xs).take bs :: chunkFuel fuel bs ((x :: xs).drop bs)

/-- Split a list into consecutive chunks of size `bs` (the batching of
an unshuffled `DataLoader`). -/
def chunkList (bs : Nat) (l : List Row) : List (List Row) :=
  chunkFuel l.length bs l

/-- `collate_fn`. Modelled from the spec: it is imported from
`pytorch_retinanet.retinanet.utilities`, outside `src/`; per the spec
it groups N sampled (image, target, id) triples into one `Batch`,
keeping the targets as an ordered sequence aligned by index with the
images (order preserved, nothing dropped). -/
def collate_fn (samples : List Row) : Batch :=
  { images := samples.map Row.image
  , targets := samples.map Row.target
  , ids := samples.map Row.id }

/-- `DetectionDataset`. Modelled from the spec: it is imported from
`pytorch_retinanet`, outside `src/`; per the spec it yields one
(image, target, id) sample per dataframe record, in record order, the
augmentation pipeline transforming samples without reordering them. -/
structure DetectionDataset where
  df : List Row
  tfms : List String

/-- The samples a `DetectionDataset` enumerates, in dataframe order. -/
def DetectionDataset.samples (ds : DetectionDataset) : List Row := ds.df

/-- A constructed torch `DataLoader`. Modelled from the spec / the
standard `DataLoader` contract: it holds the dataset, the batch size,
the `shuffle` flag (third positional argument; `False` by default) and
the extra keyword options forwarded from `hparams.dataloader`. -/
structure DataLoaderCfg where
  dataset : DetectionDataset
  batch_size : Nat
  shuffle : Bool
  options : List (String × Scalar)

/-- The batches an unshuffled `DataLoader` yields: the dataset's
samples in dataset order, chunked by batch size. (A shuffled loader
would permute the samples first; no claim depends on the permutation.) -/
def DataLoaderCfg.orderedBatches (dl : DataLoaderCfg) : List (List Row) :=
  chunkList dl.batch_size dl.dataset.samples

/-- The record-source reader environment: what `pd.read_csv` returns
for each path — either the row list of a readable source (possibly
empty) or a read failure. -/
def ReadEnv : Type := String → Except OrchestratorError (List Row)

/-- `get_tfms`. Modelled from the spec: resolves the three per-stage
augmentation pipelines from the configuration. -/
def get_tfms (hp : Hparams) : Tfms :=
  { train := hp.train_augs, valid := hp.valid_augs, test := hp.test_augs }

/-- `prepare_data` (`references/lightning.py` lines 68-90): instantiate
the transforms, then read the three csv record sources in order
(train, validation, test), storing each dataframe on `self`; a reader
failure propagates (aborting), and each successful read is logged.
No emptiness check is performed. -/
def DetectionModel.prepare_data (env : ReadEnv) (st : DetectionModel) :
    Except OrchestratorError DetectionModel := do
  let tfms := get_tfms st.hparams
  let trn_df ← env st.hparams.train_csv
  let val_df ← env st.hparams.valid_csv
  let test_df ← env st.hparams.test_csv
  .ok { st with tfms := tfms, trn_df := trn_df, val_df := val_df, test_df := test_df }

/-- `forward` (`references/lightning.py` line 95): delegate to the
wrapped model's evaluation-mode forward. -/
def DetectionModel.forward (st : DetectionModel) (xb : List Image) :
    List (String × Scalar) :=
  st.model.forwardEval xb

/-- `train_dataloader` (`references/lightning.py` lines 101-107): a
`DataLoader` over the train dataset with `shuffle=True` (third
positional argument). Assigns nothing to `self`. -/
def DetectionModel.train_dataloader (st : DetectionModel) : DataLoaderCfg :=
  let train_ds : DetectionDataset := { df := st.trn_df, tfms := st.tfms.train }
  let bs := st.hparams.train_batch_size
  { dataset := train_ds, batch_size := bs, shuffle := true, options := st.hparams.dataloader }

/-- `val_dataloader` (`references/lightning.py` lines 121-127): a
`DataLoader` over the validation dataset; no `shuffle` argument, hence
unshuffled. Assigns nothing to `self`. -/
def DetectionModel.val_dataloader (st : DetectionModel) : DataLoaderCfg :=
  let val_ds : DetectionDataset := { df := st.val_df, tfms := st.tfms.valid }
  let bs := st.hparams.valid_batch_size
  { dataset := val_ds, batch_size := bs, shuffle := false, options := st.hparams.dataloader }

/-- `test_dataloader` (`references/lightning.py` lines 145-154): a
`DataLoader` over the test dataset, unshuffled, and — as a side effect —
a freshly constructed `CocoEvaluator` assigned to
`self.test_evaluator`, replacing whatever was there. -/
def DetectionModel.test_dataloader (st : DetectionModel) :
    DetectionModel × DataLoaderCfg :=
  let test_ds : DetectionDataset := { df := st.test_df, tfms := st.tfms.test }
  let bs := st.hparams.test_batch_size
  let loader : DataLoaderCfg :=
    { dataset := test_ds, batch_size := bs, shuffle := false, options := st.hparams.dataloader }
  ({ st with test_evaluator := some (CocoEvaluator.fresh [st.hparams.iou_types]) }, loader)

/-- `test_step` (`references/lightning.py` lines 156-162): unpack the
batch, run prediction-mode forward, build the dict from image id to
output by zipping targets with outputs, feed it to
`self.test_evaluator.update`, and return the empty dict `{}` (no loss
is computed and no result is returned to the caller). -/
def DetectionModel.test_step (st : DetectionModel) (batch : Batch) :
    Except OrchestratorError (DetectionModel × List (String × Scalar)) := do
  let targets := batch.targets
  let outputs := st.model.predictBatch batch.images
  let res := dictOfPairs ((targets.zip outputs).map (fun p => (p.fst.image_id, p.snd)))
  match st.test_evaluator with
  | none => .error .attributeError
  | some ev => do
      let ev ← ev.update res
      .ok ({ st with test_evaluator := some ev }, [])

/-- `test_epoch_end` (`references/lightning.py` lines 164-172): call
`accumulate` then `summarize` on `self.test_evaluator`, once each.
(The subsequent extraction of the headline AP number from
`coco_eval["bbox"].stats[0]` is part of the unembedded AP numerics.) -/
def DetectionModel.test_epoch_end (st : DetectionModel) :
    Except OrchestratorError DetectionModel :=
  match st.test_evaluator with
  | none => .error .attributeError
  | some ev => .ok { st with test_evaluator := some ev.accumulate.summarize }

/-- `LogCallback.on_train_start` (`references/lightning.py` lines
180-184): re-invokes `pl_module.train_dataloader()` (which assigns
nothing) and logs the dataset size and the starting iteration. -/
def LogCallback.on_train_start (globalStep : Nat) (st : DetectionModel) :
    DetectionModel × List String :=
  let dl := st.train_dataloader
  let n := dl.dataset.samples.length
  (st, [s!"Training on {n} images", s!"Training from iteration {globalStep} : "])

/-- `LogCallback.on_test_start` (`references/lightning.py` lines
186-188): re-invokes `pl_module.test_dataloader()` — which, as a side
effect, assigns a fresh `CocoEvaluator` to `pl_module.test_evaluator` —
and logs the dataset size. -/
def LogCallback.on_test_start (st : DetectionModel) :
    DetectionModel × List String :=
  let (st, dl) := st.test_dataloader
  let n := dl.dataset.samples.length
  ( st, [s!"Inference on {n} images"])

/-- Events emitted by the run driver, recording hook firings. -/
inductive RunEvent where
  | trainStartHook
  | testStartHook
deriving DecidableEq

/-- Run driver. Modelled from the spec: the Lightning trainer sequences
`prepare_data`, then one training epoch (firing `on_train_start` once at
entry into training), then the test pass (firing `on_test_start` once at
entry into testing, folding `test_step` over the test batches, and
closing with `test_epoch_end`). A failure anywhere aborts the run, so
a `prepare_data` failure aborts before any stage starts. Shuffled
training batch order is taken as the identity permutation, which no
claim depends on. -/
def runStages (env : ReadEnv) (st0 : DetectionModel) :
    Except OrchestratorError (DetectionModel × List RunEvent × List TrainStepOut) := do
  let st ← st0.prepare_data env
  let (st, _) := st.configure_optimizers
  -- entry into Training(1)
  let (st, _) := LogCallback.on_train_start 0 st
  let trainLoader := st.train_dataloader
  let (st, outs) := trainLoader.orderedBatches.foldl
    (fun acc rows =>
      let (st, out) := acc.fst.training_step (collate_fn rows)
      (st, acc.snd ++ [out]))
    (st, ([] : List TrainStepOut))
  -- entry into Testing
  let (st, testLoader) := st.test_dataloader
  let (st, _) := LogCallback.on_test_start st
  let st ← testLoader.orderedBatches.foldlM
    (fun st rows => (st.test_step (collate_fn rows)).map Prod.fst) st
  let st ← st.test_epoch_end
  .ok (st, [RunEvent.trainStartHook, RunEvent.testStartHook], outs)

theorem chunkFuel_flatten : ∀ (fuel bs : Nat) (l : List Row),
    (chunkFuel fuel bs l).flatten = l := by
  intro fuel
  induction fuel with
  | zero =>
    intro bs l
    cases l <;> simp [chunkFuel]
  | succ n ih =>
    intro bs l
    cases l with
    | nil => simp [chunkFuel]
    | cons x xs =>
      by_cases h : bs = 0
      · simp [chunkFuel, h]
      · simp [chunkFuel, h, ih]

theorem chunkList_flatten (bs : Nat) (l : List Row) : (chunkList bs l).flatten = l :=
  chunkFuel_flatten l.length bs l

/-- Claim C1: the scalar loss returned by every train step is the sum of
the named components of the loss breakdown produced by the model's
forward pass; in particular, with the stub model returning fixed
components classification 0.3 and regression 0.2 on every batch, every
train step reports total loss 0.5. -/
theorem training_step_loss_is_component_sum :
    (∀ (st : DetectionModel) (batch : Batch),
        (st.training_step batch).snd.loss
          = lossTotal (st.model.forwardLoss batch.images batch.targets))
    ∧ ∀ batch : Batch, (stubDM.training_step batch).snd.loss = 1/2 := by
  constructor
  · intro st batch
    rfl
  · intro batch
    show lossTotal [("classification", 3/10), ("regression", 2/10)] = 1/2
    norm_num [lossTotal]

/-- Claim C4: the optimizer built by `configure_optimizers` — both the
one returned in the optimizer list and the one stored on `self` — is
bound to exactly the model parameters whose `requires_grad` flag is
true. -/
theorem configure_optimizers_binds_trainable :
    ∀ (st : DetectionModel) (opt : Optimizer),
      (opt ∈ (st.configure_optimizers).snd.fst
        ∨ (st.configure_optimizers).fst.optimizer = some opt) →
      ∀ p : Param, p ∈ opt.params ↔ (p ∈ st.model.parameters ∧ p.requires_grad = true) := by
  intro st opt hopt p
  have hopt' : opt = { class_name := st.hparams.optimizer.class_name
                     , params := st.model.parameters.filter (fun q => q.requires_grad)
                     , hyper := st.hparams.optimizer.params } := by
    rcases hopt with h | h
    · simpa [DetectionModel.configure_optimizers] using h
    · simpa [DetectionModel.configure_optimizers] using h.symm
  subst hopt'
  simp [List.mem_filter]

theorem configure_optimizers_binds_trainable_witness :
    ((⟨"torch.optim.SGD", [⟨0, true⟩, ⟨2, true⟩], [("lr", 1/100)]⟩ : Optimizer)
        ∈ (stubDM.configure_optimizers).snd.fst
      ∨ (stubDM.configure_optimizers).fst.optimizer
        = some ⟨"torch.optim.SGD", [⟨0, true⟩, ⟨2, true⟩], [("lr", 1/100)]⟩)
    ∧ ((⟨0, true⟩ : Param)
        ∈ (Optimizer.params ⟨"torch.optim.SGD", [⟨0, true⟩, ⟨2, true⟩], [("lr", 1/100)]⟩)
      ↔ ((⟨0, true⟩ : Param) ∈ stubDM.model.parameters
          ∧ (⟨0, true⟩ : Param).requires_grad = true)) :=
  ⟨Or.inr rfl,
   configure_optimizers_binds_trainable stubDM
     ⟨"torch.optim.SGD", [⟨0, true⟩, ⟨2, true⟩], [("lr", 1/100)]⟩ (Or.inr rfl) ⟨0, true⟩⟩

/-- Claim C5 counterexample: the validation step does NOT return the
loss breakdown. On a concrete batch, with the stub model whose forward
pass produces the two named components classification and regression,
the returned `EvalResult` carries exactly one log entry, named
`val_loss`, holding only the summed scalar 1/2 — the named components
are discarded, not returned. -/
theorem validation_step_returns_only_scalar_total :
    ((stubDM.validation_step ⟨[10], [⟨[], [], 3⟩], [0]⟩).snd.logs.map LogEntry.name
        = ["val_loss"])
    ∧ ((stubDM.model.forwardLoss [10] [⟨[], [], 3⟩]).map Prod.fst
        = ["classification", "regression"])
    ∧ ((stubDM.validation_step ⟨[10], [⟨[], [], 3⟩], [0]⟩).snd.logs.map LogEntry.value
        = [1/2]) := by
  refine ⟨rfl, rfl, ?_⟩
  show [lossTotal [("classification", 3/10), ("regression", 2/10)]] = [1/2]
  norm_num [lossTotal]

/-- Claim C5 (amended): executing the validation step leaves the whole
module state — in particular the model's parameters and the stored
optimizer state — unchanged: it is a pure read of the current model
state; its return value is an `EvalResult` logging only the scalar
total of the loss breakdown under `val_loss` (the named components are
discarded rather than returned). -/
theorem validation_step_is_pure_read :
    ∀ (st : DetectionModel) (batch : Batch),
      (st.validation_step batch).fst = st
      ∧ (st.validation_step batch).snd.logs
          = [{ name := "val_loss"
             , value := lossTotal (st.model.forwardLoss batch.images batch.targets)
             , on_step := false, on_epoch := true, prog_bar := true, logger := true }] := by
  intro st batch
  exact ⟨rfl, rfl⟩

/-- Claim C10: only the train dataloader is built with shuffling
enabled; the validation and test dataloaders are unshuffled, and their
batches enumerate the split's records in dataset order (joining the
batches gives back exactly the stored dataframe rows, in order). -/
theorem only_train_dataloader_shuffles :
    ∀ st : DetectionModel,
      (st.train_dataloader).shuffle = true
      ∧ (st.val_dataloader).shuffle = false
      ∧ ((st.test_dataloader).snd).shuffle = false
      ∧ (st.val_dataloader).orderedBatches.flatten = st.val_df
      ∧ ((st.test_dataloader).snd).orderedBatches.flatten = st.test_df := by
  intro st
  refine ⟨rfl, rfl, rfl, ?_, ?_⟩
  · exact chunkList_flatten _ _
  · exact chunkList_flatten _ _

theorem mem_keys_dictInsert (d : List (Nat × DetectionResult)) (a : Nat)
    (b : DetectionResult) (k : Nat) :
    k ∈ (dictInsert d a b).map Prod.fst ↔ (k ∈ d.map Prod.fst ∨ k = a) := by
  unfold dictInsert
  by_cases h : d.any (fun e => e.fst == a) = true
  · rw [if_pos h]
    have hkeys : (d.map (fun e => if e.fst == a then (a, b) else e)).map Prod.fst
        = d.map Prod.fst := by
      rw [List.map_map]
      refine List.map_congr_left ?_
      intro e _
      by_cases he : (e.fst == a) = true
      · have hea : e.fst = a := beq_iff_eq.mp he
        simp [Function.comp_apply, he, hea]
      · have hea : ¬e.fst = a := by simpa using he
        simp [Function.comp_apply, he, hea]
    rw [hkeys]
    constructor
    · exact Or.inl
    · rintro (hk | rfl)
      · exact hk
      · rcases List.any_eq_true.mp h with ⟨e, he, heq⟩
        exact List.mem_map.mpr ⟨e, he, beq_iff_eq.mp heq⟩
  · rw [if_neg h]
    simp

theorem mem_keys_dictFold (ps : List (Nat × DetectionResult)) :
    ∀ (d : List (Nat × DetectionResult)) (k : Nat),
      k ∈ (ps.foldl (fun d p => dictInsert d p.fst p.snd) d).map Prod.fst
        ↔ (k ∈ d.map Prod.fst ∨ k ∈ ps.map Prod.fst) := by
  induction ps with
  | nil => simp
  | cons p ps ih =>
    intro d k
    rw [List.foldl_cons, ih, mem_keys_dictInsert]
    simp only [List.map_cons, List.mem_cons]
    tauto

theorem mem_keys_dictOfPairs (ps : List (Nat × DetectionResult)) (k : Nat) :
    k ∈ (dictOfPairs ps).map Prod.fst ↔ k ∈ ps.map Prod.fst := by
  unfold dictOfPairs
  simpa using mem_keys_dictFold ps [] k

theorem dictFold_eq_append (ps : List (Nat × DetectionResult)) :
    ∀ d : List (Nat × DetectionResult),
      (d.map Prod.fst ++ ps.map Prod.fst).Nodup →
      ps.foldl (fun d p => dictInsert d p.fst p.snd) d = d ++ ps := by
  induction ps with
  | nil => intro d _; simp
  | cons p ps ih =>
    intro d h
    have hnotin : p.fst ∉ d.map Prod.fst := by
      intro hmem
      exact List.disjoint_of_nodup_append h hmem (by simp)
    have hany : d.any (fun e => e.fst == p.fst) = false := by
      rw [List.any_eq_false]
      intro e he
      simp only [Bool.not_eq_true, beq_eq_false_iff_ne, ne_eq]
      intro heq
      exact hnotin (List.mem_map.mpr ⟨e, he, heq⟩)
    have hins : dictInsert d p.fst p.snd = d ++ [p] := by
      simp [dictInsert, hany]
    rw [List.foldl_cons, hins, ih (d ++ [p]) (by simpa [List.append_assoc] using h),
      List.append_assoc]
    simp

theorem dictOfPairs_eq_self (ps : List (Nat × DetectionResult))
    (h : (ps.map Prod.fst).Nodup) : dictOfPairs ps = ps := by
  unfold dictOfPairs
  simpa using dictFold_eq_append ps [] (by simpa using h)

theorem update_ok (ev : CocoEvaluator) (res : List (Nat × DetectionResult))
    (h : ∀ k ∈ res.map Prod.fst, k ∉ ev.entries.map Prod.fst) :
    ev.update res = .ok { ev with entries := ev.entries ++ res } := by
  unfold CocoEvaluator.update
  have hfalse : res.any (fun r => ev.entries.any (fun e => e.fst == r.fst)) = false := by
    rw [List.any_eq_false]
    intro r hr
    simp only [Bool.not_eq_true, List.any_eq_false]
    intro e he
    simp only [beq_eq_false_iff_ne, ne_eq]
    intro heq
    exact h r.fst (List.mem_map.mpr ⟨r, hr, rfl⟩) (List.mem_map.mpr ⟨e, he, heq⟩)
  rw [if_neg (by simp [hfalse])]

theorem update_duplicate (ev : CocoEvaluator) (res : List (Nat × DetectionResult))
    (k : Nat) (h1 : k ∈ res.map Prod.fst) (h2 : k ∈ ev.entries.map Prod.fst) :
    ev.update res = .error .duplicateImage := by
  unfold CocoEvaluator.update
  rcases List.mem_map.mp h1 with ⟨r, hr, hrk⟩
  rcases List.mem_map.mp h2 with ⟨e, he, hek⟩
  have htrue : res.any (fun r => ev.entries.any (fun e => e.fst == r.fst)) = true := by
    rw [List.any_eq_true]
    exact ⟨r, hr, List.any_eq_true.mpr ⟨e, he, beq_iff_eq.mpr (hek.trans hrk.symm)⟩⟩
  rw [if_pos (by simp [htrue])]

theorem zip_map_pair (ts : List Target) (os : List DetectionResult) :
    (ts.zip os).map (fun p => (p.fst.image_id, p.snd))
      = List.zipWith (fun t o => (t.image_id, o)) ts os := by
  induction ts generalizing os with
  | nil => simp
  | cons t ts ih =>
    cases os with
    | nil => simp
    | cons o os => simp [ih]

theorem pairs_keys (ts : List Target) (os : List DetectionResult)
    (h : ts.length ≤ os.length) :
    ((ts.zip os).map (fun p => (p.fst.image_id, p.snd))).map Prod.fst
      = ts.map Target.image_id := by
  rw [List.map_map]
  have h2 : (ts.zip os).map (Prod.fst ∘ fun p : Target × DetectionResult => (p.fst.image_id, p.snd))
      = ((ts.zip os).map Prod.fst).map Target.image_id := by
    rw [List.map_map]
    rfl
  rw [h2, List.map_fst_zip ts os h]

theorem test_step_spec (st : DetectionModel) (ev : CocoEvaluator) (batch : Batch)
    (hev : st.test_evaluator = some ev)
    (hdisj : ∀ t ∈ batch.targets, t.image_id ∉ ev.entries.map Prod.fst) :
    st.test_step batch = .ok
      ({ st with test_evaluator := some { ev with entries := ev.entries ++ dictOfPairs ((batch.targets.zip (st.model.predictBatch batch.images)).map (fun p => (p.fst.image_id, p.snd))) } }, []) := by
  have hkeys : ∀ k ∈ (dictOfPairs ((batch.targets.zip (st.model.predictBatch batch.images)).map
      (fun p => (p.fst.image_id, p.snd)))).map Prod.fst, k ∉ ev.entries.map Prod.fst := by
    intro k hk
    rw [mem_keys_dictOfPairs] at hk
    simp only [List.map_map, Function.comp] at hk
    rcases List.mem_map.mp hk with ⟨q, hq, hqk⟩
    have ht := (List.of_mem_zip hq).1
    subst hqk
    exact hdisj q.1 ht
  unfold DetectionModel.test_step
  simp only [hev]
  rw [update_ok ev _ hkeys]
  rfl

/-- Claim C2 (amended): `CocoEvaluator.update` invoked by a test step
whose batch carries an image identifier already submitted in an earlier
step of the pass raises `DuplicateImageError`; but two occurrences of
the same identifier within one batch do not raise — the dict
comprehension in `test_step` collapses them (later occurrence wins)
before `update` is called, so the step succeeds whenever the batch's
identifiers are disjoint from the already-submitted ones. -/
theorem update_duplicate_across_steps :
    (∀ (st : DetectionModel) (ev : CocoEvaluator) (batch : Batch) (t : Target),
        st.test_evaluator = some ev →
        t ∈ batch.targets →
        t.image_id ∈ ev.entries.map Prod.fst →
        batch.targets.length ≤ (st.model.predictBatch batch.images).length →
        st.test_step batch = .error .duplicateImage)
    ∧ ∀ (st : DetectionModel) (ev : CocoEvaluator) (batch : Batch),
        st.test_evaluator = some ev →
        (∀ t ∈ batch.targets, t.image_id ∉ ev.entries.map Prod.fst) →
        (st.test_step batch).isOk = true := by
  constructor
  · intro st ev batch t hev ht hdup hlen
    have hkey : t.image_id ∈ ((batch.targets.zip (st.model.predictBatch batch.images)).map
        (fun p => (p.fst.image_id, p.snd))).map Prod.fst := by
      rw [pairs_keys _ _ hlen]
      exact List.mem_map.mpr ⟨t, ht, rfl⟩
    have hkey2 := (mem_keys_dictOfPairs _ _).mpr hkey
    unfold DetectionModel.test_step
    simp only [hev]
    rw [update_duplicate ev _ t.image_id hkey2 hdup]
    rfl
  · intro st ev batch hev hdisj
    rw [test_step_spec st ev batch hev hdisj]
    rfl

/-- Module state whose test evaluator is freshly installed (as
`test_dataloader` leaves it). -/
def dupState : DetectionModel :=
  { stubDM with test_evaluator := some (CocoEvaluator.fresh ["bbox"]) }

/-- A batch in which two targets carry the same image identifier 5. -/
def dupBatch : Batch :=
  { images := [10, 11], targets := [⟨[], [], 5⟩, ⟨[], [], 5⟩], ids := [0, 1] }

/-- Claim C2 counterexample: on a batch containing the same image
identifier twice, the test step does NOT raise `DuplicateImageError`:
the dict comprehension silently overwrites, and the accumulator ends up
with the single entry for identifier 5 holding the prediction of the
second image. -/
theorem test_step_collapses_batch_duplicates :
    dupState.test_step dupBatch
      = .ok ({ dupState with test_evaluator := some ⟨["bbox"], [(5, stubPrediction 11)], false, false⟩ }, []) := by
  rfl

/-- Claim C3: every call of `test_dataloader` (the test-stage entry)
installs a newly constructed, empty, un-accumulated evaluator no matter
what the previous state held — so a subsequent test pass always
operates on a fresh accumulator, never a reset-and-reused one — and
`test_epoch_end` finalizes it by applying `accumulate` then `summarize`
once (a repeated `accumulate` being a no-op). -/
theorem test_accumulator_fresh_per_pass :
    (∀ st : DetectionModel,
        (st.test_dataloader).fst.test_evaluator
            = some (CocoEvaluator.fresh [st.hparams.iou_types])
          ∧ (CocoEvaluator.fresh [st.hparams.iou_types]).entries = []
          ∧ (CocoEvaluator.fresh [st.hparams.iou_types]).accumulated = false)
    ∧ (∀ (st : DetectionModel) (ev : CocoEvaluator),
        st.test_evaluator = some ev →
        st.test_epoch_end = .ok { st with test_evaluator := some ev.accumulate.summarize })
    ∧ ∀ ev : CocoEvaluator, ev.accumulate.accumulate = ev.accumulate := by
  refine ⟨fun st => ⟨rfl, rfl, rfl⟩, ?_, ?_⟩
  · intro st ev hev
    unfold DetectionModel.test_epoch_end
    rw [hev]
  · intro ev
    by_cases h : ev.accumulated <;> simp [CocoEvaluator.accumulate, h]

theorem test_accumulator_fresh_per_pass_witness :
    (dupState.test_dataloader).fst.test_evaluator
        = some (CocoEvaluator.fresh [dupState.hparams.iou_types])
      ∧ dupState.test_epoch_end
        = .ok { dupState with test_evaluator := some (CocoEvaluator.fresh ["bbox"]).accumulate.summarize } :=
  ⟨(test_accumulator_fresh_per_pass.1 dupState).1,
   test_accumulator_fresh_per_pass.2.1 dupState (CocoEvaluator.fresh ["bbox"]) rfl⟩

/-- A used, finalized evaluator: what the accumulator looks like after
a completed pass over image 10 with identifier 5. -/
def usedState : DetectionModel :=
  { stubDM with test_evaluator := some ⟨["bbox"], [(5, stubPrediction 10)], true, true⟩ }

theorem update_duplicate_across_steps_witness :
    (usedState.test_evaluator = some ⟨["bbox"], [(5, stubPrediction 10)], true, true⟩
      ∧ (⟨[], [], 5⟩ : Target) ∈ (⟨[12], [⟨[], [], 5⟩], [2]⟩ : Batch).targets
      ∧ (5 : Nat) ∈ ((⟨["bbox"], [(5, stubPrediction 10)], true, true⟩ : CocoEvaluator)).entries.map Prod.fst
      ∧ usedState.test_step ⟨[12], [⟨[], [], 5⟩], [2]⟩ = .error .duplicateImage)
    ∧ (dupState.test_step ⟨[12], [⟨[], [], 7⟩], [2]⟩).isOk = true :=
  ⟨⟨rfl, by simp, by simp,
    update_duplicate_across_steps.1 usedState ⟨["bbox"], [(5, stubPrediction 10)], true, true⟩
      ⟨[12], [⟨[], [], 5⟩], [2]⟩ ⟨[], [], 5⟩ rfl (by simp) (by simp) (by decide)⟩,
   update_duplicate_across_steps.2 dupState (CocoEvaluator.fresh ["bbox"])
      ⟨[12], [⟨[], [], 7⟩], [2]⟩ rfl (by simp [CocoEvaluator.fresh])⟩

/-- A batch of a single image with identifier 3. -/
def oneImageBatch : Batch := ⟨[10], [⟨[], [], 3⟩], [0]⟩

/-- Claim C6 counterexample: on a batch of one image the test step's
returned value is the empty dict — it contains no `DetectionResult` at
all (the per-image results go to the accumulator instead of being
returned). -/
theorem test_step_returns_empty_dict :
    dupState.test_step oneImageBatch
      = .ok ({ dupState with test_evaluator := some ⟨["bbox"], [(3, stubPrediction 10)], false, false⟩ }, ([] : List (String × Scalar)))
    ∧ oneImageBatch.images.length = 1 :=
  ⟨rfl, rfl⟩

/-- Claim C6 (amended): for every batch whose target identifiers are
pairwise distinct and disjoint from the already-submitted ones, and
whose prediction-mode forward yields one output per image, the test
step computes one `DetectionResult` per image via `model.predict` and
records exactly one new accumulator entry per image (keyed by the
image identifier, paired positionally); it computes no loss, and its
own return value is the empty dict. -/
theorem test_step_records_one_result_per_image :
    ∀ (st : DetectionModel) (ev : CocoEvaluator) (batch : Batch),
      st.test_evaluator = some ev →
      (batch.targets.map Target.image_id).Nodup →
      (∀ t ∈ batch.targets, t.image_id ∉ ev.entries.map Prod.fst) →
      (st.model.predictBatch batch.images).length = batch.targets.length →
      batch.targets.length = batch.images.length →
      st.test_step batch = .ok ({ st with test_evaluator := some { ev with entries := ev.entries ++ List.zipWith (fun t o => (t.image_id, o)) batch.targets (st.model.predictBatch batch.images) } }, ([] : List (String × Scalar)))
      ∧ (List.zipWith (fun t o => (t.image_id, o)) batch.targets (st.model.predictBatch batch.images)).length = batch.images.length := by
  intro st ev batch hev hnodup hdisj hlen himg
  have hkeysnodup : (((batch.targets.zip (st.model.predictBatch batch.images)).map
      (fun p => (p.fst.image_id, p.snd))).map Prod.fst).Nodup := by
    rw [pairs_keys _ _ hlen.ge]
    exact hnodup
  constructor
  · have hspec := test_step_spec st ev batch hev hdisj
    rw [dictOfPairs_eq_self _ hkeysnodup] at hspec
    rw [hspec, zip_map_pair]
  · rw [List.length_zipWith, hlen, himg]
    simp

theorem test_step_records_one_result_per_image_witness :
    dupState.test_step ⟨[10, 11], [⟨[], [], 3⟩, ⟨[], [], 4⟩], [0, 1]⟩
        = .ok ({ dupState with test_evaluator := some ⟨["bbox"], [(3, stubPrediction 10), (4, stubPrediction 11)], false, false⟩ }, ([] : List (String × Scalar)))
      ∧ (List.zipWith (fun t o => (t.image_id, o)) ([⟨[], [], 3⟩, ⟨[], [], 4⟩] : List Target)
          (dupState.model.predictBatch [10, 11])).length = 2 :=
  test_step_records_one_result_per_image dupState (CocoEvaluator.fresh ["bbox"])
    ⟨[10, 11], [⟨[], [], 3⟩, ⟨[], [], 4⟩], [0, 1]⟩ rfl (by decide)
    (by simp [CocoEvaluator.fresh]) (by decide) (by decide)

/-- Claim C9: collation yields as many targets as images, drops
nothing, and preserves order (the i-th image and i-th target come from
the i-th sample); consequently the test step's positional zip pairs
the model output for the i-th image with the ground-truth identifier
of the i-th sample when it fills the accumulator. -/
theorem collate_preserves_order_and_pairing :
    (∀ samples : List Row,
        (collate_fn samples).images.length = (collate_fn samples).targets.length
        ∧ (collate_fn samples).images = samples.map Row.image
        ∧ (collate_fn samples).targets = samples.map Row.target)
    ∧ ∀ (st : DetectionModel) (ev : CocoEvaluator) (samples : List Row),
        st.test_evaluator = some ev →
        ((samples.map Row.target).map Target.image_id).Nodup →
        (∀ s ∈ samples, s.target.image_id ∉ ev.entries.map Prod.fst) →
        (st.model.predictBatch (samples.map Row.image)).length = samples.length →
        st.test_step (collate_fn samples) = .ok ({ st with test_evaluator := some { ev with entries := ev.entries ++ List.zipWith (fun s o => (s.target.image_id, o)) samples (st.model.predictBatch (samples.map Row.image)) } }, ([] : List (String × Scalar))) := by
  constructor
  · intro samples
    exact ⟨by simp [collate_fn], rfl, rfl⟩
  · intro st ev samples hev hnodup hdisj hlen
    have hdisj' : ∀ t ∈ (collate_fn samples).targets, t.image_id ∉ ev.entries.map Prod.fst := by
      intro t ht
      rcases List.mem_map.mp ht with ⟨s, hs, rfl⟩
      exact hdisj s hs
    have hlen' : (samples.map Row.target).length
        ≤ (st.model.predictBatch (samples.map Row.image)).length := by
      simp [hlen]
    have hkeysnodup : ((((samples.map Row.target).zip
        (st.model.predictBatch (samples.map Row.image))).map
        (fun p => (p.fst.image_id, p.snd))).map Prod.fst).Nodup := by
      rw [pairs_keys _ _ hlen']
      exact hnodup
    have hspec := test_step_spec st ev (collate_fn samples) hev hdisj'
    simp only [collate_fn] at hspec ⊢
    rw [dictOfPairs_eq_self _ hkeysnodup] at hspec
    rw [hspec, zip_map_pair, List.zipWith_map_left]

/-- Two concrete record rows used by the collation witness. -/
def twoRows : List Row := [⟨10, ⟨[], [], 3⟩, 0⟩, ⟨11, ⟨[], [], 4⟩, 1⟩]

theorem collate_preserves_order_and_pairing_witness :
    ((collate_fn twoRows).images.length = (collate_fn twoRows).targets.length
      ∧ (collate_fn twoRows).images = twoRows.map Row.image
      ∧ (collate_fn twoRows).targets = twoRows.map Row.target)
    ∧ usedState.test_step (collate_fn twoRows)
        = .ok ({ usedState with test_evaluator := some ⟨["bbox"], [(5, stubPrediction 10), (3, stubPrediction 10), (4, stubPrediction 11)], true, true⟩ }, ([] : List (String × Scalar))) :=
  ⟨collate_preserves_order_and_pairing.1 twoRows,
   collate_preserves_order_and_pairing.2 usedState ⟨["bbox"], [(5, stubPrediction 10)], true, true⟩
     twoRows rfl (by decide) (by decide) (by decide)⟩

/-- A reader environment in which every record source is readable but
holds zero records. -/
def envEmptyOk : ReadEnv := fun _ => .ok []

/-- A reader environment in which every record source is unreadable. -/
def envAllBad : ReadEnv := fun p => .error (.readError p)

/-- Claim C7 counterexample: with all three record sources readable but
empty, `prepare_data` succeeds — no emptiness check is performed and no
error of any kind is raised — and the whole run proceeds through every
stage without aborting. -/
theorem prepare_data_accepts_empty_sources :
    (stubDM.prepare_data envEmptyOk).isOk = true
    ∧ (runStages envEmptyOk stubDM).isOk = true :=
  ⟨rfl, rfl⟩

theorem runStages_error_of_prepare_error (env : ReadEnv) (st : DetectionModel)
    (h : (st.prepare_data env).isOk = false) : (runStages env st).isOk = false := by
  unfold runStages
  cases hp : st.prepare_data env with
  | error e => rfl
  | ok st1 =>
    rw [hp] at h
    exact Bool.noConfusion h

/-- Claim C7 (amended): the staging step (`prepare_data`) fails
whenever any of the three named record sources cannot be read — the
reader's error propagates, and the failure aborts the run before any
stage starts; a readable source with zero records, however, is not
rejected (the code performs no emptiness check and defines no
`ConfigurationError`). -/
theorem prepare_data_aborts_on_unreadable_source :
    ∀ (env : ReadEnv) (st : DetectionModel),
      ((env st.hparams.train_csv).isOk = false
        ∨ (env st.hparams.valid_csv).isOk = false
        ∨ (env st.hparams.test_csv).isOk = false) →
      (st.prepare_data env).isOk = false ∧ (runStages env st).isOk = false := by
  intro env st h
  have hp : (st.prepare_data env).isOk = false := by
    unfold DetectionModel.prepare_data
    cases h1 : env st.hparams.train_csv with
    | error e => rfl
    | ok trn =>
      cases h2 : env st.hparams.valid_csv with
      | error e => rfl
      | ok val =>
        cases h3 : env st.hparams.test_csv with
        | error e => rfl
        | ok tst =>
          rw [h1, h2, h3] at h
          rcases h with h | h | h <;> exact Bool.noConfusion h
  exact ⟨hp, runStages_error_of_prepare_error env st hp⟩

theorem prepare_data_aborts_on_unreadable_source_witness :
    ((envAllBad stubDM.hparams.train_csv).isOk = false
      ∨ (envAllBad stubDM.hparams.valid_csv).isOk = false
      ∨ (envAllBad stubDM.hparams.test_csv).isOk = false)
    ∧ (stubDM.prepare_data envAllBad).isOk = false
    ∧ (runStages envAllBad stubDM).isOk = false :=
  ⟨Or.inl rfl,
   prepare_data_aborts_on_unreadable_source envAllBad stubDM (Or.inl rfl)⟩

/-- Claim C8 counterexample: firing `on_test_start` on a module whose
accumulator holds a completed pass replaces that accumulator (the hook
re-invokes `test_dataloader`, which installs a fresh `CocoEvaluator`):
the hook is not purely observational on orchestrator state. -/
theorem on_test_start_replaces_accumulator :
    (LogCallback.on_test_start usedState).fst.test_evaluator ≠ usedState.test_evaluator := by
  decide

theorem exceptBind_ok {α β : Type} {x : Except OrchestratorError α}
    {f : α → Except OrchestratorError β} {b : β}
    (h : x >>= f = .ok b) : ∃ a, x = .ok a ∧ f a = .ok b := by
  cases x with
  | error e => exact Except.noConfusion h
  | ok a => exact ⟨a, rfl, h⟩

/-- Claim C8 (amended): in the run driver each start-of-stage hook
fires exactly once per entry into its stage (a successful run's event
trace is exactly one train-start followed by one test-start), and
`on_train_start` leaves the module state unchanged; `on_test_start`,
however, is not purely observational: it re-invokes `test_dataloader`
and thereby replaces the test accumulator with a freshly constructed
one, leaving every other part of the state unchanged. -/
theorem hooks_once_and_frame :
    (∀ (gs : Nat) (st : DetectionModel), (LogCallback.on_train_start gs st).fst = st)
    ∧ (∀ st : DetectionModel, (LogCallback.on_test_start st).fst
        = { st with test_evaluator := some (CocoEvaluator.fresh [st.hparams.iou_types]) })
    ∧ ∀ (env : ReadEnv) (st : DetectionModel)
        (out : DetectionModel × List RunEvent × List TrainStepOut),
        runStages env st = .ok out →
        out.snd.fst = [RunEvent.trainStartHook, RunEvent.testStartHook] := by
  refine ⟨fun gs st => rfl, fun st => rfl, ?_⟩
  intro env st out h
  unfold runStages at h
  obtain ⟨st1, -, h⟩ := exceptBind_ok h
  obtain ⟨st2, -, h⟩ := exceptBind_ok h
  obtain ⟨st3, -, h⟩ := exceptBind_ok h
  cases h
  rfl

theorem hooks_once_and_frame_witness :
    (LogCallback.on_train_start 0 stubDM).fst = stubDM
    ∧ (LogCallback.on_test_start dupState).fst
        = { dupState with test_evaluator := some (CocoEvaluator.fresh [dupState.hparams.iou_types]) }
    ∧ (match runStages envEmptyOk stubDM with
        | .ok out => out.snd.fst
        | .error _ => []) = [RunEvent.trainStartHook, RunEvent.testStartHook] := by
  refine ⟨hooks_once_and_frame.1 0 stubDM, hooks_once_and_frame.2.1 dupState, ?_⟩
  obtain ⟨out, hout⟩ : ∃ out, runStages envEmptyOk stubDM = .ok out := by
    have hok : (runStages envEmptyOk stubDM).isOk = true := by rfl
    cases hr : runStages envEmptyOk stubDM with
    | ok o => exact ⟨o, rfl⟩
    | error e =>
      rw [hr] at hok
      exact Bool.noConfusion hok
  have h3 := hooks_once_and_frame.2.2 envEmptyOk stubDM out hout
  rw [hout]
  exact h3
